import Mathlib

/-!
Verification of the `db` module (`src/db/__init__.py`): a shallow embedding of
its SQL-clause generation, record introspection, upsert construction, scoped
session context, streaming mapper and lazy engine initialization, together
with proofs about the spec's claims.

Conventions of the embedding:
* Python strings are Lean `String`s; the character-level helpers work on
  `List Char` (the `data` of a `String`).
* `subFind needle s` returns the index of the first occurrence of `needle`
  in `s` (for containment tests it agrees with Python's `s.rfind(needle) == -1`
  check, which only distinguishes found from not found).
* `pyReplace needle repl s` is Python's `s.replace(needle, repl)`: it replaces
  every non-overlapping occurrence, scanning left to right, and does not
  rescan the replacement text.
-/

/-- Boolean test that the first list is a prefix of the second. -/
def listPre : List Char → List Char → Bool
  | [], _ => true
  | _ :: _, [] => false
  | a :: as, b :: bs => if a = b then listPre as bs else false

/-- First index at which `needle` occurs as a contiguous sublist of `s`,
`none` if it does not occur. -/
def subFind (needle : List Char) : List Char → Option Nat
  | [] => if needle = [] then some 0 else none
  | c :: rest =>
    if listPre needle (c :: rest) then some 0
    else (subFind needle rest).map (· + 1)

/-- Fuel-indexed worker for `pyReplace`; the fuel only has to dominate the
length of the scanned list, and `pyReplace` always supplies enough. -/
def pyReplaceAux (needle repl : List Char) : Nat → List Char → List Char
  | 0, s => s
  | _ + 1, [] => []
  | fuel + 1, c :: rest =>
    if listPre needle (c :: rest) then
      repl ++ pyReplaceAux needle repl fuel (List.drop (needle.length - 1) rest)
    else
      c :: pyReplaceAux needle repl fuel rest

/-- Python `s.replace(needle, repl)` on character lists: replace every
non-overlapping occurrence, scanning left to right. -/
def pyReplace (needle repl s : List Char) : List Char :=
  pyReplaceAux needle repl s.length s

/-- Embedding of the `@compiles(Insert)` hook `append_string` from
`src/db/__init__.py`: given the compiled insert text `s` and the
`postgresql_append_string` keyword `clause`, it returns `s` unchanged when the
clause is falsy (None or empty, both modelled by `""`); otherwise it appends
`" " ++ clause` when the text has no `RETURNING`, and else replaces
`"RETURNING"` by `" " ++ clause ++ " RETURNING "`. -/
def append_string (s clause : String) : String :=
  if clause = "" then s
  else if subFind "RETURNING".data s.data = none then s ++ " " ++ clause
  else ⟨pyReplace "RETURNING".data (" " ++ clause ++ " RETURNING ").data s.data⟩

lemma listPre_append_self (l t : List Char) : listPre l (l ++ t) = true := by
  induction l with
  | nil => rfl
  | cons c cs ih => simp [listPre, ih]

lemma subFind_cons_eq_none {needle : List Char} {c : Char} {rest : List Char}
    (h : subFind needle (c :: rest) = none) :
    listPre needle (c :: rest) = false ∧ subFind needle rest = none := by
  by_cases hp : listPre needle (c :: rest) = true
  · simp [subFind, hp] at h
  · refine ⟨by simpa using hp, ?_⟩
    have hpf : listPre needle (c :: rest) = false := by simpa using hp
    simp only [subFind, hpf, Bool.false_eq_true, if_false] at h
    cases hE : subFind needle rest with
    | none => rfl
    | some k => simp [hE] at h

/-- Replacing a needle that does not occur is the identity, for any fuel. -/
lemma pyReplaceAux_of_none (needle repl : List Char) (fuel : Nat) :
    ∀ s : List Char, subFind needle s = none → pyReplaceAux needle repl fuel s = s := by
  induction fuel with
  | zero => intro s _; rfl
  | succ fuel ih =>
    intro s h
    cases s with
    | nil => rfl
    | cons c rest =>
      obtain ⟨hp, hrest⟩ := subFind_cons_eq_none h
      simp [pyReplaceAux, hp, ih rest hrest]

/-- When the first occurrence of `needle` is exactly the middle of
`a ++ needle ++ b` and `needle` does not occur in `b`, Python's `replace`
rewrites exactly that occurrence. -/
lemma pyReplaceAux_splice (needle repl : List Char) (hne : needle ≠ []) :
    ∀ (a : List Char) (fuel : Nat) (b : List Char),
      (a ++ (needle ++ b)).length ≤ fuel →
      subFind needle (a ++ (needle ++ b)) = some a.length →
      subFind needle b = none →
      pyReplaceAux needle repl fuel (a ++ (needle ++ b)) = a ++ (repl ++ b) := by
  intro a
  induction a with
  | nil =>
    intro fuel b hfuel hfirst hb
    cases needle with
    | nil => exact absurd rfl hne
    | cons n ns =>
      cases fuel with
      | zero => simp at hfuel
      | succ fuel =>
        have hp : listPre (n :: ns) (n :: (ns ++ b)) = true := by
          have := listPre_append_self (n :: ns) b
          simpa using this
        simp only [List.nil_append, List.cons_append, pyReplaceAux, List.append_eq, hp,
          if_true, List.length_cons, Nat.add_sub_cancel]
        rw [List.drop_left, pyReplaceAux_of_none _ _ _ _ hb]
  | cons x a' ih =>
    intro fuel b hfuel hfirst hb
    rw [List.cons_append] at hfuel hfirst ⊢
    by_cases hp : listPre needle (x :: (a' ++ (needle ++ b))) = true
    · simp [subFind, hp] at hfirst
    · have hpf : listPre needle (x :: (a' ++ (needle ++ b))) = false := by simpa using hp
      have hrest : subFind needle (a' ++ (needle ++ b)) = some a'.length := by
        simp only [subFind, hpf, Bool.false_eq_true, if_false, List.length_cons] at hfirst
        cases hE : subFind needle (a' ++ (needle ++ b)) with
        | none => simp [hE] at hfirst
        | some k =>
          rw [hE] at hfirst
          simp at hfirst
          simp [hfirst]
      cases fuel with
      | zero => simp at hfuel
      | succ fuel =>
        have hfuel' : (a' ++ (needle ++ b)).length ≤ fuel := by
          simp only [List.length_cons] at hfuel; omega
        simp [pyReplaceAux, hpf, ih fuel b hfuel' hrest hb]

lemma pyReplace_splice (needle repl a b : List Char) (hne : needle ≠ [])
    (hfirst : subFind needle (a ++ (needle ++ b)) = some a.length)
    (hb : subFind needle b = none) :
    pyReplace needle repl (a ++ (needle ++ b)) = a ++ (repl ++ b) :=
  pyReplaceAux_splice needle repl hne a _ b (Nat.le_refl _) hfirst hb

/-- Claim C4: for every insert statement whose compiled text contains the
RETURNING keyword (at a unique position) and that carries a non-empty conflict
clause, the compiler hook splices the conflict clause immediately before the
RETURNING keyword; for every such statement without RETURNING, the conflict
clause is appended after the full statement. -/
theorem C4_returning_splice :
    (∀ s clause : String, clause ≠ "" → subFind "RETURNING".data s.data = none →
      append_string s clause = s ++ " " ++ clause) ∧
    (∀ a b clause : String, clause ≠ "" →
      subFind "RETURNING".data (a ++ "RETURNING" ++ b).data = some a.length →
      subFind "RETURNING".data b.data = none →
      append_string (a ++ "RETURNING" ++ b) clause =
        a ++ " " ++ clause ++ " RETURNING " ++ b) := by
  constructor
  · intro s clause hcl hnone
    simp [append_string, hcl, hnone]
  · intro a b clause hcl hfirst hb
    have hdata : (a ++ "RETURNING" ++ b).data =
        a.data ++ ("RETURNING".data ++ b.data) := by
      simp [String.data_append]
    have hlen : (a.length : Nat) = a.data.length := rfl
    rw [hdata, hlen] at hfirst
    have hsome : ¬subFind "RETURNING".data (a ++ "RETURNING" ++ b).data = none := by
      rw [hdata, hfirst]; simp
    apply String.ext
    simp only [append_string, hcl, if_false, if_neg hsome]
    rw [hdata, pyReplace_splice _ _ _ _ (by decide) hfirst hb]
    simp [String.data_append]

/-- Witness for C4: both branches of the hook evaluated at concrete statements
and the concrete clause used by `insert_or_ignore`. -/
theorem C4_returning_splice_witness :
    (("ON CONFLICT DO NOTHING" : String) ≠ "" ∧
      subFind "RETURNING".data "INSERT INTO t (a) VALUES (%(a)s)".data = none ∧
      append_string "INSERT INTO t (a) VALUES (%(a)s)" "ON CONFLICT DO NOTHING" =
        "INSERT INTO t (a) VALUES (%(a)s)" ++ " " ++ "ON CONFLICT DO NOTHING") ∧
    (subFind "RETURNING".data
        ("INSERT INTO t (a) VALUES (%(a)s) " ++ "RETURNING" ++ " id").data =
        some ("INSERT INTO t (a) VALUES (%(a)s) " : String).length ∧
      subFind "RETURNING".data (" id" : String).data = none ∧
      append_string ("INSERT INTO t (a) VALUES (%(a)s) " ++ "RETURNING" ++ " id")
          "ON CONFLICT DO NOTHING" =
        "INSERT INTO t (a) VALUES (%(a)s) " ++ " " ++ "ON CONFLICT DO NOTHING" ++
          " RETURNING " ++ " id") :=
  ⟨⟨by decide, by decide,
      C4_returning_splice.1 "INSERT INTO t (a) VALUES (%(a)s)" "ON CONFLICT DO NOTHING"
        (by decide) (by decide)⟩,
    ⟨by decide, by decide,
      C4_returning_splice.2 "INSERT INTO t (a) VALUES (%(a)s) " " id" "ON CONFLICT DO NOTHING"
        (by decide) (by decide) (by decide)⟩⟩

/-!
Record introspection and the upsert engine.

A record (`declarative_base` instance) is modelled as a table name plus its
declared columns, each carrying an optional value: `none` is a Python `None`
attribute (an unset column), `some v` a present value. Column values are
opaque scalars, modelled as `Nat`.

Python `set`s are modelled as duplicate-free lists (`List.dedup` performs the
`set(...)` conversion, `filter` the `difference`); iteration order of a Python
set is unspecified, so every property proved below about the generated update
clause is order-independent (membership, one-assignment-per-member, emptiness).
-/

structure Column where
  name : String
  value : Option Nat
  deriving DecidableEq

structure Record where
  table : String
  columns : List Column
  deriving DecidableEq

/-- Embedding of `get_model_dict`: the (column name, value) pairs of exactly
the columns whose attribute is not `None`, in declared column order. -/
def get_model_dict (model : Record) : List (String × Nat) :=
  model.columns.filterMap (fun c => c.value.map (fun v => (c.name, v)))

/-- Embedding of the effective update-field computation in `insert_or_update`:
`update_fields` defaults to the keys of `get_model_dict`, then
`exclude_fields` is subtracted. The conflict column is not treated specially
anywhere in this computation. -/
def updateFieldsEff (entry : Record) (update_fields : Option (List String))
    (exclude_fields : List String) : List String :=
  let model_dict := get_model_dict entry
  let uf := update_fields.getD (model_dict.map Prod.fst)
  uf.dedup.filter (fun k => decide (k ∉ exclude_fields))

/-- Embedding of the `', '.join('{0} = %({0})s'.format(key) ...)` line. -/
def update_string (fields : List String) : String :=
  String.intercalate ", " (fields.map (fun key => key ++ " = %(" ++ key ++ ")s"))

def ON_CONFLICT_DO_NOTHING : String := "ON CONFLICT DO NOTHING"

/-- Embedding of the `ON_CONFLICT_DO_UPDATE` template instantiated with a
conflict column and an update string. -/
def ON_CONFLICT_DO_UPDATE (column updates : String) : String :=
  "ON CONFLICT (" ++ column ++ ") DO UPDATE SET " ++ updates

/-- The `postgresql_append_string` clause `insert_or_update` passes to the
compiler hook. -/
def insert_or_update_clause (entry : Record) (column : String)
    (update_fields : Option (List String)) (exclude_fields : List String) : String :=
  ON_CONFLICT_DO_UPDATE column
    (update_string (updateFieldsEff entry update_fields exclude_fields))

lemma map_fst_get_model_dict (r : Record) :
    (get_model_dict r).map Prod.fst =
      (r.columns.filter (fun c => c.value.isSome)).map Column.name := by
  unfold get_model_dict
  induction r.columns with
  | nil => rfl
  | cons c cs ih => cases hv : c.value <;> simp [hv, ih]

lemma length_get_model_dict (r : Record) :
    (get_model_dict r).length = (r.columns.filter (fun c => c.value.isSome)).length := by
  have := map_fst_get_model_dict r
  calc (get_model_dict r).length = ((get_model_dict r).map Prod.fst).length := by simp
    _ = _ := by rw [this]; simp

/-- Claim C6: `get_model_dict` returns a mapping containing exactly the
declared columns whose value is present (non-null): every returned pair comes
from a present column, every present column is returned, no null-valued
column ever appears, and the size equals the number of present columns. -/
theorem C6_get_model_dict_present_columns (r : Record)
    (hnd : (r.columns.map Column.name).Nodup) :
    (∀ p ∈ get_model_dict r, ∃ c ∈ r.columns, c.name = p.1 ∧ c.value = some p.2) ∧
    (∀ c ∈ r.columns, ∀ v, c.value = some v → (c.name, v) ∈ get_model_dict r) ∧
    (∀ c ∈ r.columns, c.value = none → ∀ v, (c.name, v) ∉ get_model_dict r) ∧
    (get_model_dict r).length = (r.columns.filter (fun c => c.value.isSome)).length := by
  refine ⟨?_, ?_, ?_, length_get_model_dict r⟩
  · intro p hp
    rw [get_model_dict, List.mem_filterMap] at hp
    obtain ⟨c, hc, hfc⟩ := hp
    cases hv : c.value with
    | none => rw [hv] at hfc; simp at hfc
    | some v =>
      rw [hv] at hfc
      simp only [Option.map_some'] at hfc
      have hpv : (c.name, v) = p := Option.some.inj hfc
      exact ⟨c, hc, by rw [← hpv], by rw [← hpv]; exact hv⟩
  · intro c hc v hv
    rw [get_model_dict, List.mem_filterMap]
    exact ⟨c, hc, by simp [hv]⟩
  · intro c hc hnone v hmem
    rw [get_model_dict, List.mem_filterMap] at hmem
    obtain ⟨c', hc', hfc⟩ := hmem
    cases hv : c'.value with
    | none => rw [hv] at hfc; simp at hfc
    | some w =>
      rw [hv] at hfc
      simp only [Option.map_some', Option.some.injEq, Prod.mk.injEq] at hfc
      have hce : c' = c :=
        List.inj_on_of_nodup_map hnd hc' hc (by rw [hfc.1])
      rw [hce, hnone] at hv
      exact Option.noConfusion hv

/-- Witness for C6 at a two-column record with one null column. -/
theorem C6_witness :
    (([⟨"id", some 1⟩, ⟨"qty", none⟩] : List Column).map Column.name).Nodup ∧
    (get_model_dict ⟨"widgets", [⟨"id", some 1⟩, ⟨"qty", none⟩]⟩).length =
      ((⟨"widgets", [⟨"id", some 1⟩, ⟨"qty", none⟩]⟩ : Record).columns.filter
        (fun c => c.value.isSome)).length :=
  ⟨by decide,
    (C6_get_model_dict_present_columns ⟨"widgets", [⟨"id", some 1⟩, ⟨"qty", none⟩]⟩
      (by decide)).2.2.2⟩

/-- The effective update set as the spec words it: `update_fields` if given,
otherwise the set of all present (non-null) columns of the record, minus
`exclude_fields`. -/
def specEffectiveSet (entry : Record) (update_fields : Option (List String))
    (exclude_fields : List String) : Finset String :=
  (update_fields.getD
      ((entry.columns.filter (fun c => c.value.isSome)).map Column.name)).toFinset \
    exclude_fields.toFinset

/-- Claim C5: the effective update set equals (`update_fields` if given,
otherwise the present columns) minus `exclude_fields`, and the generated
trailing clause is `ON CONFLICT (<col>) DO UPDATE SET` with exactly one
assignment `<col> = %(<col>)s` per member of that set. -/
theorem C5_update_clause_shape (entry : Record) (column : String)
    (uf : Option (List String)) (ef : List String) :
    (updateFieldsEff entry uf ef).toFinset = specEffectiveSet entry uf ef ∧
    (updateFieldsEff entry uf ef).Nodup ∧
    insert_or_update_clause entry column uf ef =
      "ON CONFLICT (" ++ column ++ ") DO UPDATE SET " ++
        String.intercalate ", "
          ((updateFieldsEff entry uf ef).map
            (fun key => key ++ " = %(" ++ key ++ ")s")) := by
  refine ⟨?_, ?_, rfl⟩
  · ext x
    cases uf with
    | none =>
      simp [updateFieldsEff, specEffectiveSet, List.mem_filter,
        ← map_fst_get_model_dict entry]
    | some l =>
      simp [updateFieldsEff, specEffectiveSet, List.mem_filter]
  · exact (List.nodup_dedup _).filter _

/-- Claim C1 counterexample: a record whose present columns are `id` and
`name`, upserted with conflict column `id` and no exclusions, generates an
update clause that does contain the conflict column `id`. -/
theorem C1_counterexample :
    "id" ∈ updateFieldsEff ⟨"widgets", [⟨"id", some 1⟩, ⟨"name", some 2⟩]⟩ none [] ∧
    insert_or_update_clause ⟨"widgets", [⟨"id", some 1⟩, ⟨"name", some 2⟩]⟩ "id" none [] =
      "ON CONFLICT (id) DO UPDATE SET id = %(id)s, name = %(name)s" := by
  decide

/-- Claim C1 amended: the columns of the generated DO UPDATE SET clause never
include any column of `exclude_fields`; the conflict column is only excluded
when the caller lists it in `exclude_fields` (or leaves it out of
`update_fields`) — the code does not auto-exclude it. -/
theorem C1_amended_excluded_columns (entry : Record) (uf : Option (List String))
    (ef : List String) (c : String) (hc : c ∈ ef) :
    c ∉ updateFieldsEff entry uf ef := by
  intro hmem
  have h := (List.mem_filter.mp hmem).2
  simp only [decide_eq_true_eq] at h
  exact h hc

/-- Witness for the amended C1: excluding `id` really removes it. -/
theorem C1_amended_witness :
    ("id" : String) ∈ ["id"] ∧
    "id" ∉ updateFieldsEff ⟨"widgets", [⟨"id", some 1⟩, ⟨"name", some 2⟩]⟩ none ["id"] :=
  ⟨by decide,
    C1_amended_excluded_columns ⟨"widgets", [⟨"id", some 1⟩, ⟨"name", some 2⟩]⟩
      none ["id"] "id" (by decide)⟩

/-- Claim C10: when every effective update field is excluded, the call is not
rejected: the generated trailing clause is `ON CONFLICT (<col>) DO UPDATE SET`
followed by an empty assignment list. -/
theorem C10_empty_update_set (entry : Record) (column : String)
    (uf : Option (List String)) (ef : List String)
    (h : updateFieldsEff entry uf ef = []) :
    insert_or_update_clause entry column uf ef =
      "ON CONFLICT (" ++ column ++ ") DO UPDATE SET " := by
  rw [insert_or_update_clause, ON_CONFLICT_DO_UPDATE, h]
  have hu : update_string [] = "" := by decide
  rw [hu, String.append_empty]

/-- Witness for C10: a record whose only present column is the conflict
column, with that column excluded. -/
theorem C10_witness :
    updateFieldsEff ⟨"widgets", [⟨"id", some 1⟩]⟩ none ["id"] = [] ∧
    insert_or_update_clause ⟨"widgets", [⟨"id", some 1⟩]⟩ "id" none ["id"] =
      "ON CONFLICT (" ++ "id" ++ ") DO UPDATE SET " :=
  ⟨by decide, C10_empty_update_set ⟨"widgets", [⟨"id", some 1⟩]⟩ "id" none ["id"] (by decide)⟩

/-!
Scoped session context and the streaming mapper.

A session is modelled by its pending working set (the identity-mapped row ids
whose staged changes a commit would flush) and a chronological event trace.
`Ev.commit` records the working set flushed by that commit. Rows and
transformed values are opaque ids/scalars (`Nat`). A raised Python exception
is modelled by an `Option Unit` component (`some ()` = an exception is
propagating), and a transform or cursor fetch that raises by `none`.
-/

inductive Ev where
  | logExc
  | logRowErr
  | rollback
  | close
  | commit (flushed : List Nat)
  deriving DecidableEq

structure SessionState where
  pending : List Nat
  events : List Ev
  deriving DecidableEq

def initSession : SessionState := ⟨[], []⟩

def logExcOp (s : SessionState) : SessionState :=
  { s with events := s.events ++ [Ev.logExc] }

def logRowErrOp (s : SessionState) : SessionState :=
  { s with events := s.events ++ [Ev.logRowErr] }

def rollbackOp (s : SessionState) : SessionState :=
  { s with events := s.events ++ [Ev.rollback] }

def closeOp (s : SessionState) : SessionState :=
  { s with events := s.events ++ [Ev.close] }

/-- `session.commit()` flushes the pending working set. -/
def commitOp (s : SessionState) : SessionState :=
  { s with events := s.events ++ [Ev.commit s.pending] }

/-- A row fetched by the cursor enters the session's working set. -/
def addPending (s : SessionState) (r : Nat) : SessionState :=
  { s with pending := s.pending ++ [r] }

/-- `session.expunge(entry)` removes the row from the working set. -/
def expunge (s : SessionState) (r : Nat) : SessionState :=
  { s with pending := s.pending.erase r }

/-- Embedding of `DB.ctx`: run the block body on the session; when the body
raises, log the exception, roll back, and (in the `finally`) close; on normal
exit just close. The `except` clause does not re-raise, so the exception
escaping to the context's caller (the second component) is always `none`. -/
def ctx (body : SessionState → SessionState × Option Unit) (s0 : SessionState) :
    SessionState × Option Unit :=
  match body s0 with
  | (s, none) => (closeOp s, none)
  | (s, some _) => (closeOp (rollbackOp (logExcOp s)), none)

/-- Claim C7: on a raised error the scoped session context logs the error,
then rolls back, then closes, in that order; on normal exit it closes without
issuing any commit of its own (all commits in the final trace come from the
block body). -/
theorem C7_ctx_rollback_before_close (body : SessionState → SessionState × Option Unit)
    (s0 : SessionState) :
    ((body s0).2.isSome →
      (ctx body s0).1.events =
        (body s0).1.events ++ [Ev.logExc, Ev.rollback, Ev.close]) ∧
    ((body s0).2 = none →
      (ctx body s0).1.events = (body s0).1.events ++ [Ev.close]) ∧
    (∀ fl, Ev.commit fl ∈ (ctx body s0).1.events →
      Ev.commit fl ∈ (body s0).1.events) := by
  rcases hB : body s0 with ⟨s, e⟩
  cases e with
  | none =>
    refine ⟨by simp, ?_, ?_⟩
    · intro _
      simp [ctx, hB, closeOp]
    · intro fl hmem
      simp only [ctx, hB, closeOp] at hmem
      simp only [List.mem_append, List.mem_singleton] at hmem
      rcases hmem with h | h
      · simpa using h
      · exact absurd h (by simp)
  | some u =>
    refine ⟨?_, by simp, ?_⟩
    · intro _
      simp [ctx, hB, closeOp, rollbackOp, logExcOp]
    · intro fl hmem
      simp only [ctx, hB, closeOp, rollbackOp, logExcOp] at hmem
      simp only [List.append_assoc, List.mem_append, List.mem_singleton] at hmem
      rcases hmem with h | h
      · simpa using h
      · rcases h with h | h | h <;> simp at h

/-- Witness for C7: a body that raises out of an empty session. -/
theorem C7_witness :
    ((fun s => (s, (some () : Option Unit))) initSession).2.isSome ∧
    (ctx (fun s => (s, some ())) initSession).1.events =
      ((fun s => (s, (some () : Option Unit))) initSession).1.events ++
        [Ev.logExc, Ev.rollback, Ev.close] :=
  ⟨by decide,
    (C7_ctx_rollback_before_close (fun s => (s, some ())) initSession).1 (by decide)⟩

/-- Embedding of `DBMapper._error_handler`: run the transform on the entry;
when it raises, log the row error, expunge the entry from the session, and
return Python `None` (which the mapper still yields). -/
def error_handler (tf : Nat → Option Nat) (s : SessionState) (entry : Nat) :
    SessionState × Option Nat :=
  match tf entry with
  | some v => (s, some v)
  | none => (expunge (logRowErrOp s) entry, none)

/-- The body of one `DBMapper.map` pass over the cursor: `fetches` lists the
cursor results in order (`some r` a fetched row, `none` a connection loss
raised at that fetch), `tf` the transform. Each fetched row enters the
working set, is transformed through the error handler, and its result is
yielded when `tee`; after the cursor is exhausted the session commits once.
A connection loss aborts the body with the exception propagating. Returns
(final session, yielded values, escaping exception). -/
def mapGo (tf : Nat → Option Nat) (tee : Bool) :
    List (Option Nat) → SessionState → List (Option Nat) →
    SessionState × List (Option Nat) × Option Unit
  | [], s, acc => (commitOp s, acc, none)
  | none :: _, s, acc => (s, acc, some ())
  | some r :: rest, s, acc =>
    let p := error_handler tf (addPending s r) r
    mapGo tf tee rest p.1 (if tee then acc ++ [p.2] else acc)

structure MapOutcome where
  session : SessionState
  yielded : List (Option Nat)
  raised : Option Unit
  deriving DecidableEq

/-- Embedding of a full `DBMapper.map` pass driven to exhaustion by its
caller: the `with`-block body runs `mapGo` on a fresh session and the scoped
session context `ctx` wraps it; `raised` is what escapes to `map`'s caller. -/
def map_pass (tf : Nat → Option Nat) (fetches : List (Option Nat)) (tee : Bool) :
    MapOutcome :=
  let r := ctx (fun s => ((mapGo tf tee fetches s []).1, (mapGo tf tee fetches s []).2.2))
    initSession
  ⟨r.1, (mapGo tf tee fetches initSession []).2.1, r.2⟩

def isCommitEv : Ev → Bool
  | Ev.commit _ => true
  | _ => false

/-- A connection loss anywhere in the cursor stream makes the map body abort
with the exception propagating and without ever reaching the commit. -/
lemma mapGo_conn_lost (tf : Nat → Option Nat) (tee : Bool) :
    ∀ (fetches : List (Option Nat)) (s : SessionState) (acc : List (Option Nat)),
      none ∈ fetches →
      (mapGo tf tee fetches s acc).2.2 = some () ∧
      (mapGo tf tee fetches s acc).1.events.countP isCommitEv =
        s.events.countP isCommitEv := by
  intro fetches
  induction fetches with
  | nil => intro s acc h; simp at h
  | cons f rest ih =>
    intro s acc h
    cases f with
    | none => simp [mapGo]
    | some r =>
      have hrest : none ∈ rest := by
        rcases List.mem_cons.mp h with h0 | h0
        · exact absurd h0 (by simp)
        · exact h0
      cases htf : tf r with
      | some v =>
        have := ih (addPending s r) (if tee then acc ++ [some v] else acc) hrest
        simpa [mapGo, error_handler, htf, addPending] using this
      | none =>
        have := ih (expunge (logRowErrOp (addPending s r)) r)
          (if tee then acc ++ [none] else acc) hrest
        simp only [mapGo, error_handler, htf]
        refine ⟨this.1, ?_⟩
        rw [this.2]
        simp [expunge, logRowErrOp, addPending, List.countP_append, isCommitEv]

/-- Claim C3 counterexample: a connection loss at the second fetch of a pass.
The claim asserts the error propagates out of the pass to the caller, but the
scoped session context catches it without re-raising, so nothing escapes
(`raised = none`); the end-of-pass commit is indeed never issued. -/
theorem C3_counterexample :
    (map_pass (fun r => some (r + 1)) [some 1, none, some 3] true).raised = none ∧
    (map_pass (fun r => some (r + 1)) [some 1, none, some 3]
      true).session.events.countP isCommitEv = 0 ∧
    Ev.rollback ∈ (map_pass (fun r => some (r + 1)) [some 1, none, some 3]
      true).session.events := by
  decide

/-- Claim C3 amended: a whole-pass error (connection loss during iteration)
aborts the pass before the end-of-pass commit, and the scoped session context
logs it, rolls back and closes — but suppresses it, so no error reaches the
caller of the pass. -/
theorem C3_amended_whole_pass_error (tf : Nat → Option Nat)
    (fetches : List (Option Nat)) (tee : Bool) (h : none ∈ fetches) :
    (map_pass tf fetches tee).raised = none ∧
    (map_pass tf fetches tee).session.events.countP isCommitEv = 0 ∧
    (map_pass tf fetches tee).session.events =
      (mapGo tf tee fetches initSession []).1.events ++
        [Ev.logExc, Ev.rollback, Ev.close] := by
  obtain ⟨he, hc⟩ := mapGo_conn_lost tf tee fetches initSession [] h
  rcases hG : mapGo tf tee fetches initSession [] with ⟨s1, ys, e⟩
  rw [hG] at he hc
  simp only at he hc
  subst he
  refine ⟨?_, ?_, ?_⟩
  · simp [map_pass, ctx, hG]
  · have hc0 : List.countP isCommitEv s1.events = 0 := by simpa [initSession] using hc
    simp [map_pass, ctx, hG, closeOp, rollbackOp, logExcOp, List.countP_append, hc0,
      isCommitEv]
  · simp [map_pass, ctx, hG, closeOp, rollbackOp, logExcOp]

/-- Witness for the amended C3 at the counterexample's concrete pass. -/
theorem C3_amended_witness :
    (none ∈ [some 1, none, some 3]) ∧
    (map_pass (fun r => some (r + 1)) [some 1, none, some 3] false).raised = none ∧
    (map_pass (fun r => some (r + 1)) [some 1, none, some 3]
      false).session.events.countP isCommitEv = 0 ∧
    (map_pass (fun r => some (r + 1)) [some 1, none, some 3] false).session.events =
      (mapGo (fun r => some (r + 1)) false [some 1, none, some 3]
        initSession []).1.events ++ [Ev.logExc, Ev.rollback, Ev.close] :=
  ⟨by decide,
    C3_amended_whole_pass_error (fun r => some (r + 1)) [some 1, none, some 3] false
      (by decide)⟩

lemma erase_append_singleton {r : Nat} {l : List Nat} (h : r ∉ l) :
    (l ++ [r]).erase r = l := by
  induction l with
  | nil => simp
  | cons x xs ih =>
    have hxr : ¬(x == r) = true := by
      simp only [beq_iff_eq]
      rintro rfl
      exact h (by simp)
    have hr' : r ∉ xs := fun hx => h (by simp [hx])
    simp only [List.cons_append, List.erase_cons]
    rw [if_neg hxr, ih hr']

/-- A pass whose cursor delivers every row (no connection loss): each failing
row is logged and expunged, each succeeding row stays in the working set, the
transform results (`none` for a failing row) are yielded in order, and the
pass ends in the single commit. -/
lemma mapGo_all_fetched (tf : Nat → Option Nat) :
    ∀ (rows : List Nat) (s : SessionState) (acc : List (Option Nat)),
      (∀ r ∈ rows, r ∉ s.pending) → rows.Nodup →
      mapGo tf true (rows.map some) s acc =
        (commitOp
          ⟨s.pending ++ rows.filter (fun r => (tf r).isSome),
           s.events ++ (rows.filter (fun r => (tf r).isNone)).map (fun _ => Ev.logRowErr)⟩,
         acc ++ rows.map tf, none) := by
  intro rows
  induction rows with
  | nil =>
    intro s acc hdis hnd
    simp [mapGo]
  | cons r rows' ih =>
    intro s acc hdis hnd
    have hr : r ∉ s.pending := hdis r (by simp)
    have hnd' : rows'.Nodup := (List.nodup_cons.mp hnd).2
    have hrk : r ∉ rows' := (List.nodup_cons.mp hnd).1
    cases htf : tf r with
    | some v =>
      have hdis' : ∀ x ∈ rows', x ∉ (addPending s r).pending := by
        intro x hx
        simp only [addPending, List.mem_append, List.mem_singleton]
        rintro (hxs | rfl)
        · exact hdis x (List.mem_cons_of_mem _ hx) hxs
        · exact hrk hx
      have hstep : mapGo tf true ((r :: rows').map some) s acc =
          mapGo tf true (rows'.map some) (addPending s r) (acc ++ [some v]) := by
        simp [mapGo, error_handler, htf]
      rw [hstep, ih (addPending s r) (acc ++ [some v]) hdis' hnd']
      simp [addPending, commitOp, htf, List.filter_cons]
    | none =>
      have hstate : expunge (logRowErrOp (addPending s r)) r =
          ⟨s.pending, s.events ++ [Ev.logRowErr]⟩ := by
        simp [expunge, logRowErrOp, addPending, erase_append_singleton hr]
      have hdis' : ∀ x ∈ rows',
          x ∉ (⟨s.pending, s.events ++ [Ev.logRowErr]⟩ : SessionState).pending := by
        intro x hx
        exact hdis x (List.mem_cons_of_mem _ hx)
      have hstep : mapGo tf true ((r :: rows').map some) s acc =
          mapGo tf true (rows'.map some) ⟨s.pending, s.events ++ [Ev.logRowErr]⟩
            (acc ++ [none]) := by
        simp [mapGo, error_handler, htf, hstate]
      rw [hstep, ih _ _ hdis' hnd']
      simp [commitOp, htf, List.filter_cons]

lemma countP_isSome_of_one_failure (tf : Nat → Option Nat) (rows : List Nat) (k : Nat)
    (hnd : rows.Nodup) (hk : k ∈ rows) (hkf : tf k = none)
    (hok : ∀ r ∈ rows, r ≠ k → (tf r).isSome) :
    rows.countP (fun r => (tf r).isSome) = rows.length - 1 := by
  obtain ⟨l1, l2, rfl⟩ := List.append_of_mem hk
  have hnd1 := List.nodup_append.mp hnd
  have hk1 : k ∉ l1 := fun h => hnd1.2.2 h (by simp)
  have hk2 : k ∉ l2 := (List.nodup_cons.mp hnd1.2.1).1
  have h1 : l1.countP (fun r => (tf r).isSome) = l1.length :=
    List.countP_eq_length.mpr (fun r hr => by
      have hrk : r ≠ k := fun he => hk1 (he ▸ hr)
      simpa using hok r (by simp [hr]) hrk)
  have h2 : l2.countP (fun r => (tf r).isSome) = l2.length :=
    List.countP_eq_length.mpr (fun r hr => by
      have hrk : r ≠ k := fun he => hk2 (he ▸ hr)
      simpa using hok r (by simp [hr]) hrk)
  simp only [List.countP_append, List.countP_cons, hkf, Option.isSome_none,
    Bool.false_eq_true, if_false, h1, h2, List.length_append, List.length_cons]
  omega

/-- Claim C2 counterexample: over three rows whose transform raises on the
second, `map` with `tee` yields THREE items — the failed row is yielded as a
Python `None` placeholder — not the claimed N−1 = 2 successfully transformed
results. -/
theorem C2_counterexample :
    (map_pass (fun r => if r = 2 then none else some (10 * r)) [some 1, some 2, some 3]
      true).yielded = [some 10, none, some 30] ∧
    ¬((map_pass (fun r => if r = 2 then none else some (10 * r)) [some 1, some 2, some 3]
      true).yielded.length = 3 - 1) := by
  decide

/-- Claim C2 amended: a streaming pass over N nodup rows whose transform
raises on exactly one row k yields N items of which exactly N−1 are
successfully transformed results (the failed row is yielded as a null
placeholder), issues exactly one commit, does not raise to the caller, and
the committed working set is exactly the non-failed rows — row k was expunged
and is never flushed. -/
theorem C2_amended_row_isolation (rows : List Nat) (tf : Nat → Option Nat) (k : Nat)
    (hnd : rows.Nodup) (hk : k ∈ rows) (hkf : tf k = none)
    (hok : ∀ r ∈ rows, r ≠ k → (tf r).isSome) :
    (map_pass tf (rows.map some) true).yielded.length = rows.length ∧
    (map_pass tf (rows.map some) true).yielded.countP (fun y => y.isSome) =
      rows.length - 1 ∧
    (map_pass tf (rows.map some) true).session.events.countP isCommitEv = 1 ∧
    (map_pass tf (rows.map some) true).raised = none ∧
    Ev.commit (rows.filter (fun r => (tf r).isSome)) ∈
      (map_pass tf (rows.map some) true).session.events ∧
    k ∉ rows.filter (fun r => (tf r).isSome) ∧
    (∀ r ∈ rows, r ≠ k → r ∈ rows.filter (fun r => (tf r).isSome)) := by
  have hG := mapGo_all_fetched tf rows initSession []
    (by intro r hr; simp [initSession]) hnd
  have hG2 : mapGo tf true (rows.map some) initSession [] =
      (commitOp ⟨rows.filter (fun r => (tf r).isSome),
        (rows.filter (fun r => (tf r).isNone)).map (fun _ => Ev.logRowErr)⟩,
       rows.map tf, none) := by
    rw [hG]; simp [initSession]
  refine ⟨?_, ?_, ?_, ?_, ?_, ?_, ?_⟩
  · simp [map_pass, hG2]
  · have hcount := countP_isSome_of_one_failure tf rows k hnd hk hkf hok
    simp only [map_pass, hG2]
    rw [List.countP_map]
    exact hcount
  · have hlogs : ((rows.filter (fun r => (tf r).isNone)).map
        (fun _ => Ev.logRowErr)).countP isCommitEv = 0 := by
      rw [List.countP_map]
      exact List.countP_eq_zero.mpr (fun a _ => by simp [Function.comp, isCommitEv])
    simp [map_pass, ctx, hG2, closeOp, commitOp, List.countP_append, List.countP_cons,
      hlogs, isCommitEv]
    intro a x hx htfx ha
    subst ha
    rfl
  · simp [map_pass, ctx, hG2]
  · simp [map_pass, ctx, hG2, closeOp, commitOp]
  · intro hmem
    have := (List.mem_filter.mp hmem).2
    rw [hkf] at this
    simp at this
  · intro r hr hrk
    exact List.mem_filter.mpr ⟨hr, hok r hr hrk⟩

/-- Witness for the amended C2 at a concrete three-row pass failing on row 2. -/
theorem C2_amended_witness :
    ([1, 2, 3] : List Nat).Nodup ∧ (2 : Nat) ∈ ([1, 2, 3] : List Nat) ∧
    (fun r => if r = 2 then none else some (10 * r)) 2 = (none : Option Nat) ∧
    (∀ r ∈ ([1, 2, 3] : List Nat), r ≠ 2 →
      ((fun r => if r = 2 then none else some (10 * r)) r).isSome) ∧
    (map_pass (fun r => if r = 2 then none else some (10 * r))
      (([1, 2, 3] : List Nat).map some) true).session.events.countP isCommitEv = 1 :=
  ⟨by decide, by decide, by decide, by decide,
    (C2_amended_row_isolation [1, 2, 3] (fun r => if r = 2 then none else some (10 * r)) 2
      (by decide) (by decide) (by decide) (by decide)).2.2.1⟩

/-!
Statement execution. The SQLAlchemy compiler that renders the parameterized
insert text is an external collaborator; its output shape is fixed by the
spec's external-interface section, and the repository's own hook
(`append_string`) attaches the trailing conflict clause to it. A live session
is modelled by the list of executed (statement, parameters) pairs, a flush
counter, and a driver oracle giving the raw execution result of a statement.
-/

/-- Compiled parameterized insert text over the record's present columns. -/
def compiledInsert (r : Record) : String :=
  "INSERT INTO " ++ r.table ++ " (" ++
    String.intercalate ", " ((get_model_dict r).map Prod.fst) ++ ") VALUES (" ++
    String.intercalate ", " ((get_model_dict r).map (fun p => "%(" ++ p.1 ++ ")s")) ++ ")"

structure PySession (Res : Type) where
  executed : List (String × List (String × Nat))
  oracle : String → List (String × Nat) → Res
  flushes : Nat

/-- `session.execute(stmt, params)`: record the execution and return the raw
result the driver reports for it. -/
def sexecute {Res : Type} (s : PySession Res) (stmt : String)
    (params : List (String × Nat)) : PySession Res × Res :=
  ({ s with executed := s.executed ++ [(stmt, params)] }, s.oracle stmt params)

def sflush {Res : Type} (s : PySession Res) : PySession Res :=
  { s with flushes := s.flushes + 1 }

/-- Embedding of `insert_or_update`: execute the compiled insert carrying the
DO UPDATE conflict clause with the model dict as parameters, optionally
flush, and return Python `None`. -/
def insert_or_update {Res : Type} (s : PySession Res) (entry : Record)
    (column : String) (update_fields : Option (List String))
    (exclude_fields : List String) (flush : Bool) : PySession Res × Option Res :=
  let stmt := append_string (compiledInsert entry)
    (insert_or_update_clause entry column update_fields exclude_fields)
  let s1 := (sexecute s stmt (get_model_dict entry)).1
  (if flush then sflush s1 else s1, none)

/-- Embedding of `insert_or_ignore`: execute the compiled insert carrying
`ON CONFLICT DO NOTHING` with the model dict as parameters, optionally flush,
and return the raw execution result. -/
def insert_or_ignore {Res : Type} (s : PySession Res) (entry : Record)
    (flush : Bool) : PySession Res × Option Res :=
  let p := sexecute s (append_string (compiledInsert entry) ON_CONFLICT_DO_NOTHING)
    (get_model_dict entry)
  (if flush then sflush p.1 else p.1, some p.2)

/-- Claim C8: `insert_or_ignore` executes the same parameterized insert over
the record's present columns with the trailing clause ON CONFLICT DO NOTHING
and no update clause, and returns the raw execution result of that statement;
`insert_or_update` returns nothing (Python None), executing the same insert
with the DO UPDATE clause instead. The hypothesis pins the compiled insert
text as RETURNING-free, which makes the hook append the clause at the end. -/
theorem C8_ignore_vs_update {Res : Type} (s : PySession Res) (entry : Record)
    (column : String) (uf : Option (List String)) (ef : List String) (f1 f2 : Bool)
    (h : subFind "RETURNING".data (compiledInsert entry).data = none) :
    (insert_or_ignore s entry f1).2 =
      some (s.oracle (compiledInsert entry ++ " " ++ ON_CONFLICT_DO_NOTHING)
        (get_model_dict entry)) ∧
    (insert_or_ignore s entry f1).1.executed =
      s.executed ++ [(compiledInsert entry ++ " " ++ ON_CONFLICT_DO_NOTHING,
        get_model_dict entry)] ∧
    (insert_or_update s entry column uf ef f2).2 = none ∧
    (insert_or_update s entry column uf ef f2).1.executed =
      s.executed ++ [(append_string (compiledInsert entry)
        (insert_or_update_clause entry column uf ef), get_model_dict entry)] := by
  have hne : ¬(ON_CONFLICT_DO_NOTHING = "") := by decide
  have hstmt : append_string (compiledInsert entry) ON_CONFLICT_DO_NOTHING =
      compiledInsert entry ++ " " ++ ON_CONFLICT_DO_NOTHING := by
    rw [append_string, if_neg hne, if_pos h]
  refine ⟨?_, ?_, rfl, ?_⟩
  · simp [insert_or_ignore, sexecute, hstmt]
  · cases f1 <;> simp [insert_or_ignore, sexecute, sflush, hstmt]
  · cases f2 <;> simp [insert_or_update, sexecute, sflush]

/-- Witness for C8 with a concrete one-column record and a constant driver. -/
theorem C8_witness :
    subFind "RETURNING".data (compiledInsert ⟨"widgets", [⟨"id", some 1⟩]⟩).data = none ∧
    (insert_or_ignore (⟨[], fun _ _ => 7, 0⟩ : PySession Nat)
      ⟨"widgets", [⟨"id", some 1⟩]⟩ false).2 =
      some ((⟨[], fun _ _ => 7, 0⟩ : PySession Nat).oracle
        (compiledInsert ⟨"widgets", [⟨"id", some 1⟩]⟩ ++ " " ++ ON_CONFLICT_DO_NOTHING)
        (get_model_dict ⟨"widgets", [⟨"id", some 1⟩]⟩)) :=
  ⟨by decide,
    (C8_ignore_vs_update (⟨[], fun _ _ => 7, 0⟩ : PySession Nat)
      ⟨"widgets", [⟨"id", some 1⟩]⟩ "id" none [] false false (by decide)).1⟩

/-!
Lazy engine initialization. `DB._db` holds an optional engine and the two
session factories; a factory is modelled by the engine identifier it is bound
to, and `fresh` names the engine a `default_engine()` call would create now.
-/

structure DBState where
  engine : Option Nat
  sessionFactory : Option Nat
  autoSessionFactory : Option Nat
  deriving DecidableEq

/-- Embedding of `DB.init_db`: when `force` is set or no engine exists yet,
create the engine and bind both session factories to it; otherwise leave the
state untouched. -/
def init_db (force : Bool) (fresh : Nat) (s : DBState) : DBState :=
  if force = true ∨ s.engine = none then ⟨some fresh, some fresh, some fresh⟩ else s

/-- Claim C9: with an engine present, a non-forced `init_db` is a no-op (and
hence idempotent); with `force`, or with no engine, it (re)creates the engine
and both session factories. -/
theorem C9_init_db_idempotent (s : DBState) (fresh fresh2 : Nat) :
    (s.engine.isSome → init_db false fresh s = s) ∧
    init_db true fresh s = ⟨some fresh, some fresh, some fresh⟩ ∧
    (s.engine = none → init_db false fresh s = ⟨some fresh, some fresh, some fresh⟩) ∧
    init_db false fresh2 (init_db false fresh s) = init_db false fresh s := by
  refine ⟨?_, by simp [init_db], ?_, ?_⟩
  · intro h
    have hn : ¬s.engine = none := by
      cases hE : s.engine with
      | none => rw [hE] at h; simp at h
      | some e => simp
    simp [init_db, hn]
  · intro h
    simp [init_db, h]
  · cases hE : s.engine with
    | none => simp [init_db, hE]
    | some e => simp [init_db, hE]

/-- Witness for C9: a non-forced re-init with an engine present. -/
theorem C9_witness :
    ((⟨some 5, some 5, some 5⟩ : DBState).engine.isSome) ∧
    init_db false 9 ⟨some 5, some 5, some 5⟩ = ⟨some 5, some 5, some 5⟩ :=
  ⟨by decide, (C9_init_db_idempotent ⟨some 5, some 5, some 5⟩ 9 9).1 (by decide)⟩
